import Mathlib

/-!
Shallow embedding of `backtrader_plotting/bokeh/bokeh.py` (class `Bokeh`)
and proofs about the claims of its specification.

Plottable objects (data feeds, indicators, observers) are identified by
natural numbers; an ambient environment `Env` gives each object's plotting
metadata, mirroring the attribute reads performed by the source
(`obj.plotinfo.plot`, `obj.plotinfo.plotmaster`, `hasattr(i, 'plotinfo')`,
`i.data`, ...).  Python dictionaries keyed by objects are modelled as
association lists in insertion order (Python dicts preserve insertion
order), and the rendering library's `ColumnDataSource`/`Figure` objects are
modelled by the fields of them that `bokeh.py` itself reads or writes.
-/

namespace BacktraderPlotting

/-- Plotting metadata attached to every plottable object (`obj.plotinfo` in
backtrader).  Only the fields read by `bokeh.py` are modelled.  The
`plotmaster` field holds the id of the referenced master object, if any. -/
structure PlotInfo where
  plot : Bool
  plotskip : Bool
  subplot : Bool
  plotmaster : Option Nat
  plotabove : Bool
deriving DecidableEq, Repr

/-- The ambient object graph: `plotinfo` returns an object's plotting
metadata, `hasPlotinfo` models `hasattr(i, 'plotinfo')` (false for
`LineSingle`-derived indicators), and `dataOf` gives the id of the data feed
owning an indicator or observer (`i.data` / `o.data`). -/
structure Env where
  plotinfo : Nat → PlotInfo
  hasPlotinfo : Nat → Bool
  dataOf : Nat → Nat

/-- Fuelled execution of the `while True` loop of `Bokeh._resolve_plotmaster`
starting from a (non-None) object `o`: repeatedly follow
`obj.plotinfo.plotmaster` until it is `None` and return the final object.
Returning `none` models exhausting the fuel, i.e. the source loop not
terminating within `fuel` iterations (the source has no cycle guard). -/
def resolveChain (env : Env) : Nat → Nat → Option Nat
  | 0, _ => none
  | fuel + 1, o =>
    match (env.plotinfo o).plotmaster with
    | none => some o
    | some pm => resolveChain env fuel pm

/-- Model of `Bokeh._resolve_plotmaster(obj)`: `None` input resolves to
`None`, otherwise the master chain is followed via `resolveChain`. -/
def resolvePlotmaster (env : Env) (fuel : Nat) : Option Nat → Option Nat
  | none => none
  | some o => resolveChain env fuel o

/-- `self._data_graph`: a Python dict from a master object to the ordered
list of slave objects sharing its panel, modelled as an association list in
key-insertion order. -/
abbrev Graph := List (Nat × List Nat)

/-- Boolean list membership (Python's `in` on a list of objects). -/
def bmem (x : Nat) : List Nat → Bool
  | [] => false
  | y :: ys => if y = x then true else bmem x ys

/-- Key membership test of the dict model (`pmaster not in self._data_graph`). -/
def keyMem (g : Graph) (k : Nat) : Bool :=
  match g with
  | [] => false
  | p :: g => if p.1 = k then true else keyMem g k

/-- Python dict assignment `g[k] = v`: replace the value of an existing key
in place (keys keep their insertion position), otherwise append a new key at
the end. -/
def dictSet (g : Graph) (k : Nat) (v : List Nat) : Graph :=
  match g with
  | [] => [(k, v)]
  | p :: g => if p.1 = k then (k, v) :: g else p :: dictSet g k v

/-- The idiom `if k not in g: g[k] = []` followed by `g[k].append(x)`:
append `x` to the slave list of key `k`, creating the key at the end of the
dict if absent. -/
def dictAppend (g : Graph) (k : Nat) (x : Nat) : Graph :=
  match g with
  | [] => [(k, [x])]
  | p :: g => if p.1 = k then (p.1, p.2 ++ [x]) :: g else p :: dictAppend g k x

/-- Number of groups of the plot graph in which object `x` occurs, either as
the master key or inside that master's slave list. -/
def groupCount (g : Graph) (x : Nat) : Nat :=
  match g with
  | [] => 0
  | p :: g => (if p.1 = x ∨ bmem x p.2 = true then 1 else 0) + groupCount g x

/-- The two outputs of `Bokeh._build_graph`: `self._data_graph` and
`self._volume_graphs`. -/
structure BuildResult where
  dataGraph : Graph
  volumeGraphs : List Nat
deriving DecidableEq, Repr

/-- One iteration of the `for d in datas` loop of `_build_graph`:
skip unless `d.plotinfo.plot`; a feed with no resolvable master becomes its
own (empty) group, otherwise it is appended to the resolved master's group;
independently, when the scheme enables volume and disables volume overlay
the feed is appended to the volume-panel list. -/
def buildData (env : Env) (fuel : Nat) (volume voloverlay : Bool)
    (st : BuildResult) (d : Nat) : BuildResult :=
  if (env.plotinfo d).plot = false then st
  else
    let st1 :=
      match resolvePlotmaster env fuel (env.plotinfo d).plotmaster with
      | none => { st with dataGraph := dictSet st.dataGraph d [] }
      | some pmaster => { st with dataGraph := dictAppend st.dataGraph pmaster d }
    if volume = true ∧ voloverlay = false then
      { st1 with volumeGraphs := st1.volumeGraphs ++ [d] }
    else st1

/-- One iteration of the `for o in obs` loop of `_build_graph`: skip when
not plotted or `plotskip`; a `subplot` observer becomes its own group;
otherwise its master is resolved from `o.plotinfo.plotmaster or o.data` and
the observer is appended there.  The `none` branch of the resolution models
fuel exhaustion (the source would loop forever there). -/
def buildObs (env : Env) (fuel : Nat) (st : BuildResult) (o : Nat) : BuildResult :=
  if (env.plotinfo o).plot = false ∨ (env.plotinfo o).plotskip = true then st
  else if (env.plotinfo o).subplot = true then
    { st with dataGraph := dictSet st.dataGraph o [] }
  else
    match resolveChain env fuel (((env.plotinfo o).plotmaster).getD (env.dataOf o)) with
    | some pmaster => { st with dataGraph := dictAppend st.dataGraph pmaster o }
    | none => st

/-- One iteration of the `for i in inds` loop of `_build_graph`: like the
observer loop, but objects without a `plotinfo` attribute are skipped first,
and the master expression is
`i.plotinfo.plotmaster if i.plotinfo.plotmaster is not None else i.data`. -/
def buildInd (env : Env) (fuel : Nat) (st : BuildResult) (i : Nat) : BuildResult :=
  if env.hasPlotinfo i = false then st
  else if (env.plotinfo i).plot = false ∨ (env.plotinfo i).plotskip = true then st
  else if (env.plotinfo i).subplot = true then
    { st with dataGraph := dictSet st.dataGraph i [] }
  else
    match resolveChain env fuel (((env.plotinfo i).plotmaster).getD (env.dataOf i)) with
    | some pmaster => { st with dataGraph := dictAppend st.dataGraph pmaster i }
    | none => st

/-- Model of `Bokeh._build_graph(datas, inds, obs)`: starting from empty
outputs, process all data feeds, then all observers, then all indicators
(the order of the three loops in the source body). -/
def buildGraph (env : Env) (fuel : Nat) (volume voloverlay : Bool)
    (datas inds obs : List Nat) : BuildResult :=
  let st : BuildResult := { dataGraph := [], volumeGraphs := [] }
  let st := datas.foldl (buildData env fuel volume voloverlay) st
  let st := obs.foldl (buildObs env fuel) st
  inds.foldl (buildInd env fuel) st

/-- The effect of one `_build_graph` loop iteration on the plot graph,
abstracted: either the object is skipped, becomes a master with a fresh
empty group, or is appended as a slave of master `r`. -/
inductive Role where
  | rSkip : Role
  | rMaster : Role
  | rSlave : Nat → Role
deriving DecidableEq, Repr

/-- Apply the plot-graph effect of an object `x` with a given role. -/
def roleStep (g : Graph) (x : Nat) : Role → Graph
  | Role.rSkip => g
  | Role.rMaster => dictSet g x []
  | Role.rSlave r => dictAppend g r x

/-- The role a data feed takes in the `for d in datas` loop. -/
def dataRole (env : Env) (fuel : Nat) (d : Nat) : Role :=
  if (env.plotinfo d).plot = false then Role.rSkip
  else
    match resolvePlotmaster env fuel (env.plotinfo d).plotmaster with
    | none => Role.rMaster
    | some pmaster => Role.rSlave pmaster

/-- The role an observer takes in the `for o in obs` loop. -/
def obsRole (env : Env) (fuel : Nat) (o : Nat) : Role :=
  if (env.plotinfo o).plot = false ∨ (env.plotinfo o).plotskip = true then Role.rSkip
  else if (env.plotinfo o).subplot = true then Role.rMaster
  else
    match resolveChain env fuel (((env.plotinfo o).plotmaster).getD (env.dataOf o)) with
    | some pmaster => Role.rSlave pmaster
    | none => Role.rSkip

/-- The role an indicator takes in the `for i in inds` loop. -/
def indRole (env : Env) (fuel : Nat) (i : Nat) : Role :=
  if env.hasPlotinfo i = false then Role.rSkip
  else if (env.plotinfo i).plot = false ∨ (env.plotinfo i).plotskip = true then Role.rSkip
  else if (env.plotinfo i).subplot = true then Role.rMaster
  else
    match resolveChain env fuel (((env.plotinfo i).plotmaster).getD (env.dataOf i)) with
    | some pmaster => Role.rSlave pmaster
    | none => Role.rSkip

/-- Model of Python's `bisect.bisect_left(a, x)` on a sorted list: the
left-biased insertion point, i.e. the number of elements strictly below
`x`.  (The stdlib binary search and this linear recursion agree on sorted
input, which is `bisect`'s documented precondition.) -/
def bisect_left (a : List Int) (x : Int) : Nat :=
  match a with
  | [] => 0
  | y :: ys => if y < x then bisect_left ys x + 1 else 0

/-- Model of Python's `bisect.bisect_right(a, x)` on a sorted list: the
right-biased insertion point, i.e. the number of elements at most `x`. -/
def bisect_right (a : List Int) (x : Int) : Nat :=
  match a with
  | [] => 0
  | y :: ys => if y ≤ x then bisect_right ys x + 1 else 0

/-- Model of `backtrader.date2num` on a calendar date: backtrader encodes a
timestamp as (day number) + (fraction of day).  We model timestamps as
fixed-point integers with `1000` sub-day units, so a calendar date `d`
(midnight) maps to `d * 1000`. -/
def date2num (d : Nat) : Int := (d : Int) * 1000

/-- The calendar date a fixed-point timestamp falls on (`num2date(...).date()`). -/
def dateOf (t : Int) : Int := t / 1000

/-- A `start`/`end` argument of `Bokeh.plot`: absent, an integer index, or a
calendar date (`datetime.date`). -/
inductive PBound where
  | absent : PBound
  | idx : Int → PBound
  | date : Nat → PBound
deriving DecidableEq, Repr

/-- Model of `Bokeh._get_start_end(strategy, start, end)` where `st` is the
strategy's datetime line (`strategy.lines.datetime.plot()`): absent bounds
default to `0` / `len`, date bounds are converted via `bisect_left` /
`bisect_right` over the datetime values, and a negative end is then resolved
as `len(st) + 1 + end`. -/
def get_start_end (st : List Int) (start fin : PBound) : Int × Int :=
  let s : Int :=
    match start with
    | PBound.absent => 0
    | PBound.idx i => i
    | PBound.date d => (bisect_left st (date2num d) : Int)
  let e : Int :=
    match fin with
    | PBound.absent => (st.length : Int)
    | PBound.idx i => i
    | PBound.date d => (bisect_right st (date2num d) : Int)
  let e := if e < 0 then (st.length : Int) + 1 + e else e
  (s, e)

/-- The cumulative row height of one analyzer-tab column
(`_get_column_row_count`): the sum of the `height` attributes of its
widgets, ignoring widgets whose height is `None`. -/
def colRowCount : List (Option Nat) → Nat
  | [] => 0
  | none :: t => colRowCount t
  | some h :: t => h + colRowCount t

/-- One step of the analyzer-tab column balancing in `_get_analyzer_tab`:
the next rendered block (`[table_header] + elements`, given by its widget
heights) goes into column 0 when its cumulative height is at most column
1's, else into column 1. -/
def stepAn (cols : List (Option Nat) × List (Option Nat)) (block : List (Option Nat)) :
    List (Option Nat) × List (Option Nat) :=
  if colRowCount cols.1 ≤ colRowCount cols.2 then (cols.1 ++ block, cols.2)
  else (cols.1, cols.2 ++ block)

/-- The full column balancing loop of `_get_analyzer_tab` over the rendered
blocks, starting from two empty columns (`col_childs = [[], []]`). -/
def layoutBlocks (blocks : List (List (Option Nat))) :
    List (Option Nat) × List (Option Nat) :=
  blocks.foldl stepAn ([], [])

/-- Model of `_get_analyzer_tab`: `None` when no analyzer collection was
recorded; otherwise balance all rendered blocks (one list of blocks per
recorded strategy run, flattened in order) into two columns and emit the
columns of the resulting row — the second column only when it is
non-empty. -/
def analyzerColumns (analyzers : List (List (List (Option Nat)))) :
    Option (List (List (Option Nat))) :=
  if analyzers.length = 0 then none
  else
    let cols := layoutBlocks analyzers.flatten
    some (if cols.2.length > 0 then [cols.1, cols.2] else [cols.1])

/-- The scheme fields of `backtrader_plotting.schemes` that `Bokeh.plot`
and `_build_graph` read (colour/legend settings are not modelled: the source
only forwards them to the rendering library). -/
structure Scheme where
  volume : Bool
  voloverlay : Bool
  xaxis_pos : String
deriving DecidableEq, Repr

/-- The state of one `Figure` panel that `bokeh.py` itself creates or
mutates: the master object it is bound to, the master's `plotabove` flag,
the resolved start/end range, and the x-axis tick label visibility
(`figure.xaxis.visible`, `True` by default). -/
structure FigureM where
  masterId : Nat
  plotabove : Bool
  startIdx : Int
  endIdx : Int
  xaxisVisible : Bool
deriving DecidableEq, Repr

/-- The inputs `Bokeh.plot` reads from the strategy object: its data feed,
indicator and observer ids, `len(strategy)` (elapsed bars), the datetime
line of the strategy / its first data feed, and an (opaque) analyzer
collection id (`strategy.analyzers`). -/
structure Strategy where
  datas : List Nat
  inds : List Nat
  obs : List Nat
  stratlen : Nat
  dtline : List Int
  analyzers : Nat
deriving DecidableEq, Repr

/-- The per-session state of a `Bokeh` instance that `plot` reads or
writes: `self._figures`, `self._analyzers`, `self._cds` (the shared
datetime column data source) and the two `_build_graph` outputs. -/
structure BokehState where
  figures : List FigureM
  analyzers : List Nat
  cds : Option (List Int)
  dataGraph : Option Graph
  volumeGraphs : Option (List Nat)
deriving DecidableEq, Repr

/-- The state established by `Bokeh.__init__`. -/
def initState : BokehState :=
  { figures := [], analyzers := [], cds := none, dataGraph := none, volumeGraphs := none }

/-- The `for master, slaves in self._data_graph.items()` loop of `plot`:
one `Figure` per group, bound to the master, its `plotabove` flag and the
resolved range; `figure.xaxis.visible` starts out `True`. -/
def mkFigures (env : Env) (s e : Int) (g : Graph) : List FigureM :=
  g.map fun p =>
    { masterId := p.1, plotabove := (env.plotinfo p.1).plotabove,
      startIdx := s, endIdx := e, xaxisVisible := true }

/-- The x-axis visibility configuration of `plot`: when the scheme's
`xaxis_pos` is `"bottom"`, figure `i` gets
`visible = False if i <= len(strat_figures) else True`. -/
def applyXAxisPos (pos : String) (figs : List FigureM) : List FigureM :=
  if pos = "bottom" then
    figs.enum.map fun e =>
      { e.2 with xaxisVisible := if e.1 ≤ figs.length then false else true }
  else figs

/-- Model of `Bokeh.plot(strategy, figid, numfigs, iplot, start, end, use)`.
Exceptions are modelled as `Except.error` with the raised message; a plain
`return` yields the unchanged state.  Steps, in source order: the `numfigs`
and `use` guards; the empty-`datas` and zero-length silent returns;
appending `strategy.analyzers`; building the shared datetime source only
when absent (from the first data feed's datetime line — the library-side
`plotrange`/timezone conversion is abstracted away); `_build_graph`;
`_get_start_end`; one figure per graph group; the x-axis visibility pass;
and appending the new figures to the session's list. -/
def plotCall (env : Env) (scheme : Scheme) (fuel : Nat) (st : BokehState)
    (strategy : Strategy) (numfigs : Int) (use : Option Nat)
    (start fin : PBound) : Except String BokehState :=
  if numfigs > 1 then Except.error "numfigs must be 1"
  else if use ≠ none then Except.error "Different backends by use not supported"
  else if strategy.datas = [] then Except.ok st
  else if strategy.stratlen = 0 then Except.ok st
  else
    let analyzers := st.analyzers ++ [strategy.analyzers]
    let cds : List Int :=
      match st.cds with
      | none => strategy.dtline
      | some c => c
    let br := buildGraph env fuel scheme.volume scheme.voloverlay
      strategy.datas strategy.inds strategy.obs
    let se := get_start_end strategy.dtline start fin
    let figs := mkFigures env se.1 se.2 br.dataGraph
    let figs := applyXAxisPos scheme.xaxis_pos figs
    Except.ok
      { figures := st.figures ++ figs,
        analyzers := analyzers,
        cds := some cds,
        dataGraph := some br.dataGraph,
        volumeGraphs := some br.volumeGraphs }

/-- The objects of a processing list that become their own graph group
(master) under a given role assignment. -/
def mastersFilter (ρ : Nat → Role) (L : List Nat) : List Nat :=
  L.filter fun o => decide (ρ o = Role.rMaster)

/-- The objects of a processing list that are placed into some graph group
(as master or slave) under a given role assignment. -/
def placedFilter (ρ : Nat → Role) (L : List Nat) : List Nat :=
  L.filter fun o => decide (¬(ρ o = Role.rSkip))

/-- A small concrete object graph used as a test fixture: object `1` has
object `0` as its explicit plot master and everything else is a root
(no master). -/
def envW : Env :=
  { plotinfo := fun n =>
      if n = 1 then
        { plot := true, plotskip := false, subplot := false,
          plotmaster := some 0, plotabove := false }
      else
        { plot := true, plotskip := false, subplot := false,
          plotmaster := none, plotabove := false },
    hasPlotinfo := fun _ => true,
    dataOf := fun _ => 0 }

/-- A fixture object graph in which every object is flagged to skip
(`plotskip = True`) while still being enabled for plotting. -/
def envSkip : Env :=
  { plotinfo := fun _ =>
      { plot := true, plotskip := true, subplot := false,
        plotmaster := none, plotabove := false },
    hasPlotinfo := fun _ => true,
    dataOf := fun _ => 0 }

/-- A fixture scheme: volume panels off, x-axis labels at the bottom. -/
def schemeW : Scheme := { volume := false, voloverlay := true, xaxis_pos := "bottom" }

/-- A fixture strategy with no data feeds and no elapsed bars. -/
def stratEmpty : Strategy :=
  { datas := [], inds := [], obs := [], stratlen := 0, dtline := [], analyzers := 0 }

/-- A fixture strategy with two independent (root) data feeds. -/
def stratTwo : Strategy :=
  { datas := [0, 2], inds := [], obs := [], stratlen := 1, dtline := [0], analyzers := 0 }

/-! ## Helper lemmas about the analyzer-tab column balancing -/

/-- Every fold of `stepAn` only ever appends to the first column, so the
first column of the result extends the initial first column. -/
theorem foldl_stepAn_fst_extends (bs : List (List (Option Nat))) :
    ∀ c0 c1 : List (Option Nat), ∃ t, (bs.foldl stepAn (c0, c1)).1 = c0 ++ t := by
  induction bs with
  | nil => exact fun c0 c1 => ⟨[], by simp⟩
  | cons b bs ih =>
    intro c0 c1
    simp only [List.foldl_cons, stepAn]
    split
    · obtain ⟨t, ht⟩ := ih (c0 ++ b) c1
      exact ⟨b ++ t, by simp [ht]⟩
    · exact ih c0 (c1 ++ b)

/-- C5 (amended): the analyzer tab places each rendered block greedily into
the column with the smaller cumulative height (ties go left); for three
blocks of heights 4, 2 and 3 the resulting distribution is column A = [4]
(height 4) and column B = [2, 3] (height 5) — after the first block lands in
A and the second in B, column B (height 2) is still the smaller one, so the
third block of height 3 also goes to B. -/
theorem C5_greedy_balance :
    (∀ (blocks : List (List (Option Nat))) (b : List (Option Nat)),
      layoutBlocks (blocks ++ [b]) = stepAn (layoutBlocks blocks) b) ∧
    layoutBlocks [[some 4], [some 2], [some 3]] = ([some 4], [some 2, some 3]) := by
  constructor
  · intro blocks b
    simp [layoutBlocks, List.foldl_append]
  · decide

/-- C5 counterexample: on blocks of heights 4, 2, 3 the code does not
produce the distribution A = [4, 3], B = [2] claimed by the specification. -/
theorem C5_counterexample :
    layoutBlocks [[some 4], [some 2], [some 3]] ≠ ([some 4, some 3], [some 2]) := by
  decide

/-- C10: in the analyzer-tab balancing, a tie in cumulative height sends the
next block to the left column; the very first block always lands in the left
column; and the rendered row contains a second column exactly when the
balanced second column is non-empty. -/
theorem C10_tie_goes_left :
    (∀ c0 c1 b : List (Option Nat),
      colRowCount c0 = colRowCount c1 → stepAn (c0, c1) b = (c0 ++ b, c1)) ∧
    (∀ (b : List (Option Nat)) (bs : List (List (Option Nat))),
      ∃ t, (layoutBlocks (b :: bs)).1 = b ++ t) ∧
    (∀ (analyzers : List (List (List (Option Nat)))) (cols : List (List (Option Nat))),
      analyzerColumns analyzers = some cols →
      (cols.length = 2 ↔ (layoutBlocks analyzers.flatten).2 ≠ [])) := by
  refine ⟨fun c0 c1 b h => ?_, fun b bs => ?_, fun analyzers cols h => ?_⟩
  · simp [stepAn, h]
  · have h0 : stepAn ([], []) b = (b, []) := by simp [stepAn]
    simpa [layoutBlocks, h0] using foldl_stepAn_fst_extends bs b []
  · unfold analyzerColumns at h
    split at h
    · exact absurd h (by simp)
    · rw [Option.some_inj] at h
      subst h
      split
      · rename_i hpos
        have hne : (layoutBlocks analyzers.flatten).2 ≠ [] := by
          intro hnil
          rw [hnil] at hpos
          simp at hpos
        simp [hne]
      · rename_i hpos
        have hnil : (layoutBlocks analyzers.flatten).2 = [] := by
          simpa [List.length_eq_zero] using hpos
        simp [hnil]

/-- Witness for C10 at concrete inputs: a tie of height 1 sends the block of
height 2 to the left column; the first block [4] starts the left column; and
the two-analyzer layout renders two columns exactly because the second
balanced column is non-empty. -/
theorem C10_tie_goes_left_witness :
    stepAn ([some 1], [none, some 1]) [some 2] = ([some 1, some 2], [none, some 1]) ∧
    (∃ t, (layoutBlocks [[some 4], [some 2]]).1 = [some 4] ++ t) ∧
    (([[some 4], [some 2]] : List (List (Option Nat))).length = 2 ↔
      (layoutBlocks ([[[some 4]], [[some 2]]] : List (List (List (Option Nat)))).flatten).2 ≠ []) :=
  ⟨C10_tie_goes_left.1 _ _ _ (by decide),
   C10_tie_goes_left.2.1 _ _,
   C10_tie_goes_left.2.2 [[[some 4]], [[some 2]]] _ (by decide)⟩

/-! ## Helper lemmas about the bisect-based range resolution -/

/-- On a sorted list, index `i` lies at or after the left insertion point of
`x` exactly when the element at `i` is at least `x`. -/
theorem bisect_left_le_iff (a : List Int) (x : Int) :
    List.Sorted (· ≤ ·) a → ∀ (i : Nat) (hi : i < a.length),
      (bisect_left a x ≤ i ↔ x ≤ a[i]) := by
  induction a with
  | nil => intro _ i hi; simp at hi
  | cons y ys ih =>
    intro hs i hi
    rw [List.sorted_cons] at hs
    unfold bisect_left
    split
    · rename_i hy
      cases i with
      | zero =>
        simp only [List.getElem_cons_zero]
        constructor
        · omega
        · intro hxy; omega
      | succ j =>
        simp only [List.getElem_cons_succ]
        rw [Nat.succ_le_succ_iff]
        exact ih hs.2 j (by simpa using hi)
    · rename_i hy
      have hxy : x ≤ y := by omega
      cases i with
      | zero => simpa using hxy
      | succ j =>
        have hj : j < ys.length := by simpa using hi
        simp only [List.getElem_cons_succ]
        have : y ≤ ys[j] := hs.1 _ (List.getElem_mem _)
        constructor
        · intro _; omega
        · intro _; omega

/-- On a sorted list, index `i` lies strictly before the right insertion
point of `x` exactly when the element at `i` is at most `x`. -/
theorem lt_bisect_right_iff (a : List Int) (x : Int) :
    List.Sorted (· ≤ ·) a → ∀ (i : Nat) (hi : i < a.length),
      (i < bisect_right a x ↔ a[i] ≤ x) := by
  induction a with
  | nil => intro _ i hi; simp at hi
  | cons y ys ih =>
    intro hs i hi
    rw [List.sorted_cons] at hs
    unfold bisect_right
    split
    · rename_i hy
      cases i with
      | zero =>
        simp only [List.getElem_cons_zero]
        constructor
        · intro _; exact hy
        · intro _; omega
      | succ j =>
        simp only [List.getElem_cons_succ]
        rw [Nat.succ_lt_succ_iff]
        exact ih hs.2 j (by simpa using hi)
    · rename_i hy
      cases i with
      | zero =>
        simp only [List.getElem_cons_zero]
        constructor
        · omega
        · intro h; omega
      | succ j =>
        have hj : j < ys.length := by simpa using hi
        simp only [List.getElem_cons_succ]
        have : y ≤ ys[j] := hs.1 _ (List.getElem_mem _)
        constructor
        · omega
        · intro h; omega

/-- C3 (amended): when start and end are calendar dates, the resolved index
range `[start_idx, end_idx)` contains exactly the time points whose
timestamps lie in the closed numeric interval
`[date2num start, date2num end]` — in particular a point lying exactly at
midnight of the end date is included, so over calendar dates the interval is
`[start, end]`-closed at the end bound rather than half-open. -/
theorem C3_date_range_resolution (st : List Int) (ds de : Nat)
    (hs : List.Sorted (· ≤ ·) st) (i : Nat) (hi : i < st.length) :
    ((get_start_end st (PBound.date ds) (PBound.date de)).1 ≤ (i : Int) ∧
      (i : Int) < (get_start_end st (PBound.date ds) (PBound.date de)).2) ↔
    (date2num ds ≤ st[i] ∧ st[i] ≤ date2num de) := by
  have hse : get_start_end st (PBound.date ds) (PBound.date de) =
      ((bisect_left st (date2num ds) : Int), (bisect_right st (date2num de) : Int)) := by
    unfold get_start_end
    simp
  rw [hse]
  simp only []
  have h1 := bisect_left_le_iff st (date2num ds) hs i hi
  have h2 := lt_bisect_right_iff st (date2num de) hs i hi
  constructor
  · intro ⟨ha, hb⟩
    exact ⟨h1.1 (by exact_mod_cast ha), h2.1 (by exact_mod_cast hb)⟩
  · intro ⟨ha, hb⟩
    exact ⟨by exact_mod_cast h1.2 ha, by exact_mod_cast h2.2 hb⟩

/-- Witness for C3 at a concrete input: for the sorted series `[0, 1500]`
(a midnight point of day 0 and a mid-day point of day 1) with start date 0
and end date 1, index 0 is in the resolved range and its timestamp lies in
the closed interval. -/
theorem C3_date_range_resolution_witness :
    ((get_start_end [0, 1500] (PBound.date 0) (PBound.date 1)).1 ≤ (0 : Int) ∧
      (0 : Int) < (get_start_end [0, 1500] (PBound.date 0) (PBound.date 1)).2) ↔
    (date2num 0 ≤ (0 : Int) ∧ (0 : Int) ≤ date2num 1) := by
  have h := C3_date_range_resolution [0, 1500] 0 1 (by decide) 0 (by decide)
  simpa using h

/-- C3 counterexample: the claim's half-open reading fails on the series
`[2500, 3000]` with start date 2 and end date 3: the resolved range is
`[0, 2)` and thus contains index 1, but the point at index 1 lies exactly at
midnight of day 3, whose date 3 is not in the half-open date interval
`[2, 3)`. -/
theorem C3_counterexample :
    ¬ (∀ i : Nat, i < 2 →
      (((get_start_end [2500, 3000] (PBound.date 2) (PBound.date 3)).1 ≤ (i : Int) ∧
        (i : Int) < (get_start_end [2500, 3000] (PBound.date 2) (PBound.date 3)).2) ↔
      ((2 : Int) ≤ dateOf (([2500, 3000] : List Int).getD i 0) ∧
        dateOf (([2500, 3000] : List Int).getD i 0) < 3))) := by
  decide

/-! ## Helper lemmas about the plot-master resolver -/

/-- With an acyclicity witness (a rank that strictly decreases along master
links), the resolver's value does not depend on the fuel, as long as the
fuel exceeds the rank of the start object. -/
theorem resolveChain_fuel_irrel (env : Env) (r : Nat → Nat)
    (hr : ∀ x y, (env.plotinfo x).plotmaster = some y → r y < r x) :
    ∀ f1 f2 x, r x < f1 → r x < f2 →
      resolveChain env f1 x = resolveChain env f2 x := by
  intro f1
  induction f1 with
  | zero => intro f2 x h1; omega
  | succ f1 ih =>
    intro f2 x h1 h2
    cases f2 with
    | zero => omega
    | succ f2 =>
      unfold resolveChain
      cases hpm : (env.plotinfo x).plotmaster with
      | none => rfl
      | some y =>
        have hy := hr x y hpm
        exact ih f2 y (by omega) (by omega)

/-- With an acyclicity witness and sufficient fuel, the resolver reaches an
object with no further master. -/
theorem resolveChain_terminates (env : Env) (r : Nat → Nat)
    (hr : ∀ x y, (env.plotinfo x).plotmaster = some y → r y < r x) :
    ∀ fuel x, r x < fuel →
      ∃ root, resolveChain env fuel x = some root ∧
        (env.plotinfo root).plotmaster = none := by
  intro fuel
  induction fuel with
  | zero => intro x h; omega
  | succ fuel ih =>
    intro x h
    unfold resolveChain
    cases hpm : (env.plotinfo x).plotmaster with
    | none => exact ⟨x, rfl, hpm⟩
    | some y =>
      have hy := hr x y hpm
      exact ih y (by omega)

/-- C8: for every object whose plot-master chain is acyclic (witnessed by a
rank strictly decreasing along master links) and any fuel above its rank,
the resolver terminates on a terminal root (an object with no master); an
object with no master resolves to itself; resolving any direct master link
yields the same result as resolving the object itself (so the terminal root
is the same from any intermediate node of the chain); and a `None` input
resolves to `None`. -/
theorem C8_resolver_terminal_root (env : Env) (r : Nat → Nat)
    (hr : ∀ x y, (env.plotinfo x).plotmaster = some y → r y < r x)
    (fuel : Nat) (x : Nat) (hf : r x < fuel) :
    (∃ root, resolveChain env fuel x = some root ∧
       (env.plotinfo root).plotmaster = none) ∧
    ((env.plotinfo x).plotmaster = none → resolveChain env fuel x = some x) ∧
    (∀ y fuel2, (env.plotinfo x).plotmaster = some y → r y < fuel2 →
       resolveChain env fuel2 y = resolveChain env fuel x) ∧
    resolvePlotmaster env fuel none = none := by
  refine ⟨resolveChain_terminates env r hr fuel x hf, ?_, ?_, rfl⟩
  · intro hpm
    cases fuel with
    | zero => omega
    | succ fuel =>
      unfold resolveChain
      rw [hpm]
  · intro y fuel2 hpm hf2
    cases fuel with
    | zero => omega
    | succ fuel =>
      have hy := hr x y hpm
      have : resolveChain env (fuel + 1) x = resolveChain env fuel y := by
        simp only [resolveChain, hpm]
      rw [this]
      exact resolveChain_fuel_irrel env r hr fuel2 fuel y hf2 (by omega)

/-- Witness for C8 on the fixture chain `1 → 0`: with rank `id` and fuel 2,
resolving object 1 reaches the terminal root 0, and all conjuncts hold. -/
theorem C8_resolver_terminal_root_witness :
    (∃ root, resolveChain envW 2 1 = some root ∧
       (envW.plotinfo root).plotmaster = none) ∧
    ((envW.plotinfo 1).plotmaster = none → resolveChain envW 2 1 = some 1) ∧
    (∀ y fuel2, (envW.plotinfo 1).plotmaster = some y → y < fuel2 →
       resolveChain envW fuel2 y = resolveChain envW 2 1) ∧
    resolvePlotmaster envW 2 none = none := by
  apply C8_resolver_terminal_root envW (fun n => n) ?_ 2 1 (by decide)
  intro x y h
  by_cases hx : x = 1
  · subst hx
    simp [envW] at h
    show y < 1
    omega
  · simp [envW, hx] at h

/-! ## Claims about `Bokeh.plot` -/

/-- C4 (amended): `plot` raises the "numfigs must be 1" configuration error
exactly when `numfigs > 1`, as its very first check — the guard in the code
is `numfigs > 1`, so values of `numfigs` at most 1 (including 0 and negative
values) never trigger it. -/
theorem C4_numfigs_guard (env : Env) (scheme : Scheme) (fuel : Nat)
    (st : BokehState) (strategy : Strategy) (numfigs : Int) (use : Option Nat)
    (start fin : PBound) :
    (numfigs > 1 →
      plotCall env scheme fuel st strategy numfigs use start fin =
        Except.error "numfigs must be 1") ∧
    (numfigs ≤ 1 →
      plotCall env scheme fuel st strategy numfigs use start fin ≠
        Except.error "numfigs must be 1") := by
  constructor
  · intro h
    unfold plotCall
    rw [if_pos h]
  · intro h
    unfold plotCall
    rw [if_neg (by omega)]
    split
    · simp
    · split
      · simp
      · split
        · simp
        · simp

/-- Witness for C4: `numfigs = 2` raises the error and `numfigs = 0` does
not. -/
theorem C4_numfigs_guard_witness :
    (plotCall envW schemeW 1 initState stratEmpty 2 none PBound.absent PBound.absent =
      Except.error "numfigs must be 1") ∧
    (plotCall envW schemeW 1 initState stratEmpty 0 none PBound.absent PBound.absent ≠
      Except.error "numfigs must be 1") :=
  ⟨(C4_numfigs_guard envW schemeW 1 initState stratEmpty 2 none PBound.absent PBound.absent).1
      (by decide),
   (C4_numfigs_guard envW schemeW 1 initState stratEmpty 0 none PBound.absent PBound.absent).2
      (by decide)⟩

/-- C4 counterexample: a call with `numfigs = 0` — which is different from
1 — does not raise but silently succeeds, refuting the claim that every
`numfigs ≠ 1` raises. -/
theorem C4_counterexample :
    (0 : Int) ≠ 1 ∧
    plotCall envW schemeW 1 initState stratEmpty 0 none PBound.absent PBound.absent =
      Except.ok initState :=
  ⟨by decide, rfl⟩

/-- C7: calling `plot` with valid arguments on a strategy with no data
feeds, or with zero elapsed bars, returns without raising and leaves the
whole session state (figures, analyzers, shared time source and graph
outputs) unchanged. -/
theorem C7_empty_strategy_noop (env : Env) (scheme : Scheme) (fuel : Nat)
    (st : BokehState) (strategy : Strategy) (numfigs : Int) (use : Option Nat)
    (start fin : PBound)
    (h1 : numfigs ≤ 1) (h2 : use = none)
    (h3 : strategy.datas = [] ∨ strategy.stratlen = 0) :
    plotCall env scheme fuel st strategy numfigs use start fin = Except.ok st := by
  unfold plotCall
  rw [if_neg (by omega), if_neg (by simp [h2])]
  by_cases hd : strategy.datas = []
  · rw [if_pos hd]
  · rw [if_neg hd]
    rcases h3 with h3 | h3
    · exact absurd h3 hd
    · rw [if_pos h3]

/-- Witness for C7: a call on the fixture strategy with no data feeds
returns the initial state unchanged. -/
theorem C7_empty_strategy_noop_witness :
    plotCall envW schemeW 1 initState stratEmpty 1 none PBound.absent PBound.absent =
      Except.ok initState :=
  C7_empty_strategy_noop envW schemeW 1 initState stratEmpty 1 none PBound.absent
    PBound.absent (by decide) rfl (Or.inl rfl)

/-- C9: any successful `plot` call only appends to the session's figure
list; a shared time source that already exists is reused unchanged; and when
none exists yet, either the call was a silent no-op (state untouched) or the
time source is built from the strategy's datetime line — so across a
session it is constructed at most once, by the first call that reaches graph
building, and reused by all later calls. -/
theorem C9_session_accumulation (env : Env) (scheme : Scheme) (fuel : Nat)
    (st : BokehState) (strategy : Strategy) (numfigs : Int) (use : Option Nat)
    (start fin : PBound) (st2 : BokehState)
    (h : plotCall env scheme fuel st strategy numfigs use start fin = Except.ok st2) :
    (∃ tail, st2.figures = st.figures ++ tail) ∧
    (∀ c, st.cds = some c → st2.cds = some c) ∧
    (st.cds = none → st2 = st ∨ st2.cds = some strategy.dtline) := by
  unfold plotCall at h
  split at h
  · exact absurd h (by simp)
  · split at h
    · exact absurd h (by simp)
    · split at h
      · rw [Except.ok.injEq] at h
        subst h
        exact ⟨⟨[], by simp⟩, fun c hc => hc, fun _ => Or.inl rfl⟩
      · split at h
        · rw [Except.ok.injEq] at h
          subst h
          exact ⟨⟨[], by simp⟩, fun c hc => hc, fun _ => Or.inl rfl⟩
        · rw [Except.ok.injEq] at h
          subst h
          refine ⟨⟨_, rfl⟩, ?_, ?_⟩
          · intro c hc
            simp only [hc]
          · intro hc
            rw [hc]
            exact Or.inr rfl

/-- Witness for C9: a successful call on the two-feed fixture strategy,
starting from the initial state, appends its figures and installs the
datetime line as the shared time source. -/
theorem C9_session_accumulation_witness :
    (∃ tail,
      ((plotCall envW schemeW 1 initState stratTwo 1 none PBound.absent
          PBound.absent).toOption.getD initState).figures = initState.figures ++ tail) ∧
    (∀ c, initState.cds = some c →
      ((plotCall envW schemeW 1 initState stratTwo 1 none PBound.absent
          PBound.absent).toOption.getD initState).cds = some c) ∧
    (initState.cds = none →
      ((plotCall envW schemeW 1 initState stratTwo 1 none PBound.absent
          PBound.absent).toOption.getD initState) = initState ∨
      ((plotCall envW schemeW 1 initState stratTwo 1 none PBound.absent
          PBound.absent).toOption.getD initState).cds = some stratTwo.dtline) :=
  C9_session_accumulation envW schemeW 1 initState stratTwo 1 none PBound.absent
    PBound.absent _ rfl

/-- C6 (evaluated at the failing input): after a `plot` call with the
scheme's x-axis position set to "bottom" on a strategy producing two
panels, the x-axis tick labels are hidden on *every* panel, including the
last one — the guard `i <= len(strat_figures)` in the source is always
true, so no panel keeps its labels. -/
theorem C6_xaxis_all_hidden :
    ∃ st2, plotCall envW schemeW 1 initState stratTwo 1 none PBound.absent
        PBound.absent = Except.ok st2 ∧
      st2.figures.map FigureM.xaxisVisible = [false, false] :=
  ⟨_, rfl, rfl⟩

/-! ## Claims about the volume-panel list -/

/-- Processing a data feed appends it to the volume-panel list exactly when
it is plotted and the scheme enables volume with overlay disabled. -/
theorem buildData_volumeGraphs (env : Env) (fuel : Nat) (v ov : Bool)
    (st : BuildResult) (d : Nat) :
    (buildData env fuel v ov st d).volumeGraphs =
      st.volumeGraphs ++
        (if (env.plotinfo d).plot = true ∧ v = true ∧ ov = false then [d] else []) := by
  unfold buildData
  split
  · rename_i hplot
    simp [hplot]
  · rename_i hplot
    rw [Bool.not_eq_false] at hplot
    cases hres : resolvePlotmaster env fuel (env.plotinfo d).plotmaster <;>
      · simp only []
        split
        · rename_i hv
          simp [hplot, hv.1, hv.2]
        · rename_i hv
          simp only [not_and] at hv
          simp only [hplot, true_and]
          rw [if_neg (fun hc => hv hc.1 hc.2), List.append_nil]

/-- The observer loop never touches the volume-panel list. -/
theorem buildObs_volumeGraphs (env : Env) (fuel : Nat) (st : BuildResult) (o : Nat) :
    (buildObs env fuel st o).volumeGraphs = st.volumeGraphs := by
  unfold buildObs
  split
  · rfl
  · split
    · rfl
    · split <;> rfl

/-- The indicator loop never touches the volume-panel list. -/
theorem buildInd_volumeGraphs (env : Env) (fuel : Nat) (st : BuildResult) (i : Nat) :
    (buildInd env fuel st i).volumeGraphs = st.volumeGraphs := by
  unfold buildInd
  split
  · rfl
  · split
    · rfl
    · split
      · rfl
      · split <;> rfl

/-- Folding the data loop accumulates exactly the plotted feeds into the
volume-panel list (when the scheme asks for separate volume panels). -/
theorem foldl_buildData_volumeGraphs (env : Env) (fuel : Nat) (v ov : Bool) :
    ∀ (datas : List Nat) (st : BuildResult),
      (datas.foldl (buildData env fuel v ov) st).volumeGraphs =
        st.volumeGraphs ++
          (if v = true ∧ ov = false then
            datas.filter (fun d => (env.plotinfo d).plot) else []) := by
  intro datas
  induction datas with
  | nil => intro st; simp
  | cons d ds ih =>
    intro st
    rw [List.foldl_cons, ih, buildData_volumeGraphs, List.append_assoc]
    by_cases hv : v = true ∧ ov = false
    · rw [if_pos hv, if_pos hv, List.filter_cons]
      by_cases hplot : (env.plotinfo d).plot = true
      · rw [if_pos ⟨hplot, hv.1, hv.2⟩, if_pos (by simpa using hplot)]
        simp
      · rw [if_neg (fun hc => hplot hc.1), if_neg (by simpa using hplot)]
        simp
    · rw [if_neg hv, if_neg hv, if_neg (fun hc => hv ⟨hc.2.1, hc.2.2⟩)]
      simp

/-- C2 (amended): the volume-panel list is not a per-feed selection at all —
it holds exactly the data feeds enabled for plotting whenever the scheme
enables volume and disables volume overlay, and is empty otherwise.  Such
feeds are also placed into the plot graph by the same loop iteration, so the
two outputs of the graph builder are not disjoint (the concrete overlap is
exhibited by the counterexample theorem). -/
theorem C2_volume_list_contents (env : Env) (fuel : Nat) (volume voloverlay : Bool)
    (datas inds obs : List Nat) :
    (buildGraph env fuel volume voloverlay datas inds obs).volumeGraphs =
      (if volume = true ∧ voloverlay = false then
        datas.filter (fun d => (env.plotinfo d).plot) else []) := by
  unfold buildGraph
  have hind : ∀ (l : List Nat) (st : BuildResult),
      (l.foldl (buildInd env fuel) st).volumeGraphs = st.volumeGraphs := by
    intro l
    induction l with
    | nil => intro st; rfl
    | cons i is ih => intro st; rw [List.foldl_cons, ih, buildInd_volumeGraphs]
  have hobs : ∀ (l : List Nat) (st : BuildResult),
      (l.foldl (buildObs env fuel) st).volumeGraphs = st.volumeGraphs := by
    intro l
    induction l with
    | nil => intro st; rfl
    | cons o os ih => intro st; rw [List.foldl_cons, ih, buildObs_volumeGraphs]
  rw [hind, hobs, foldl_buildData_volumeGraphs]
  simp

/-- C2 counterexample: with the scheme's volume display enabled and overlay
disabled, the single plotted data feed `0` appears both as a group of the
plot graph and in the volume-panel list — the two outputs are not
disjoint. -/
theorem C2_counterexample :
    groupCount (buildGraph envW 1 true false [0] [] []).dataGraph 0 = 1 ∧
    bmem 0 (buildGraph envW 1 true false [0] [] []).volumeGraphs = true :=
  ⟨rfl, rfl⟩

/-! ## Helper lemmas about the plot-graph dictionary model -/

/-- Boolean membership agrees with list membership. -/
theorem bmem_iff (x : Nat) (l : List Nat) : bmem x l = true ↔ x ∈ l := by
  induction l with
  | nil => simp [bmem]
  | cons y ys ih =>
    unfold bmem
    by_cases h : y = x
    · simp [h]
    · rw [if_neg h, ih, List.mem_cons]
      constructor
      · exact Or.inr
      · rintro (rfl | hx)
        · exact absurd rfl h
        · exact hx

/-- Boolean membership distributes over list append. -/
theorem bmem_append (s : Nat) (l1 l2 : List Nat) :
    bmem s (l1 ++ l2) = (bmem s l1 || bmem s l2) := by
  induction l1 with
  | nil => simp [bmem]
  | cons y ys ih =>
    simp only [List.cons_append, bmem]
    by_cases h : y = s
    · simp [h]
    · simp [h, ih]

/-- Dictionary key membership agrees with membership in the key list. -/
theorem keyMem_iff (g : Graph) (k : Nat) : keyMem g k = true ↔ k ∈ g.map Prod.fst := by
  induction g with
  | nil => simp [keyMem]
  | cons p g ih =>
    unfold keyMem
    by_cases h : p.1 = k
    · simp [h]
    · rw [if_neg h, ih, List.map_cons, List.mem_cons]
      constructor
      · exact Or.inr
      · rintro (hk | hk)
        · exact absurd hk.symm h
        · exact hk

/-- Group counting distributes over append. -/
theorem groupCount_append (g1 g2 : Graph) (x : Nat) :
    groupCount (g1 ++ g2) x = groupCount g1 x + groupCount g2 x := by
  induction g1 with
  | nil => simp [groupCount]
  | cons p g ih =>
    simp only [List.cons_append, groupCount, List.append_eq]
    rw [ih]
    omega

/-- An object occurring in no entry of the graph has group count zero. -/
theorem groupCount_eq_zero (g : Graph) (x : Nat)
    (h1 : ∀ p ∈ g, p.1 ≠ x) (h2 : ∀ p ∈ g, bmem x p.2 = false) :
    groupCount g x = 0 := by
  induction g with
  | nil => rfl
  | cons p g ih =>
    unfold groupCount
    rw [if_neg, ih (fun q hq => h1 q (List.mem_cons_of_mem _ hq))
      (fun q hq => h2 q (List.mem_cons_of_mem _ hq))]
    rintro (hp | hb)
    · exact h1 p (List.mem_cons_self _ _) hp
    · rw [h2 p (List.mem_cons_self _ _)] at hb
      exact Bool.false_ne_true hb

/-- Setting an absent key appends a fresh entry at the end of the dict. -/
theorem dictSet_fresh (g : Graph) (k : Nat) (v : List Nat) (h : keyMem g k = false) :
    dictSet g k v = g ++ [(k, v)] := by
  induction g with
  | nil => rfl
  | cons p g ih =>
    unfold dictSet
    unfold keyMem at h
    by_cases hp : p.1 = k
    · rw [if_pos hp] at h
      exact absurd h (by simp)
    · rw [if_neg hp] at h
      rw [if_neg hp, ih h, List.cons_append]

/-- Appending a slave to an existing key leaves the key list unchanged. -/
theorem dictAppend_map_fst (g : Graph) (k x : Nat) (h : keyMem g k = true) :
    (dictAppend g k x).map Prod.fst = g.map Prod.fst := by
  induction g with
  | nil => simp [keyMem] at h
  | cons p g ih =>
    unfold dictAppend
    by_cases hp : p.1 = k
    · rw [if_pos hp]
      simp [hp]
    · rw [if_neg hp]
      unfold keyMem at h
      rw [if_neg hp] at h
      simp [ih h]

/-- Appending a fresh object `x` as a slave of an existing key makes `x`
occur in exactly one group. -/
theorem dictAppend_groupCount_self (g : Graph) (r x : Nat)
    (h : keyMem g r = true)
    (hx1 : ∀ p ∈ g, p.1 ≠ x) (hx2 : ∀ p ∈ g, bmem x p.2 = false) :
    groupCount (dictAppend g r x) x = 1 := by
  induction g with
  | nil => simp [keyMem] at h
  | cons p g ih =>
    unfold dictAppend
    by_cases hp : p.1 = r
    · rw [if_pos hp]
      unfold groupCount
      rw [if_pos, groupCount_eq_zero g x (fun q hq => hx1 q (List.mem_cons_of_mem _ hq))
        (fun q hq => hx2 q (List.mem_cons_of_mem _ hq))]
      right
      rw [bmem_append]
      have : bmem x [x] = true := by simp [bmem]
      simp [this]
    · rw [if_neg hp]
      unfold keyMem at h
      rw [if_neg hp] at h
      unfold groupCount
      rw [if_neg, ih h (fun q hq => hx1 q (List.mem_cons_of_mem _ hq))
        (fun q hq => hx2 q (List.mem_cons_of_mem _ hq))]
      rintro (hh | hh)
      · exact hx1 p (List.mem_cons_self _ _) hh
      · rw [hx2 p (List.mem_cons_self _ _)] at hh
        exact Bool.false_ne_true hh

/-- Appending `x` as a slave of an existing key does not change the group
count of any other object. -/
theorem dictAppend_groupCount_other (g : Graph) (r x y : Nat)
    (h : keyMem g r = true) (hy : y ≠ x) :
    groupCount (dictAppend g r x) y = groupCount g y := by
  induction g with
  | nil => simp [keyMem] at h
  | cons p g ih =>
    unfold dictAppend
    by_cases hp : p.1 = r
    · rw [if_pos hp]
      unfold groupCount
      have hbx : bmem y [x] = false := by
        unfold bmem
        rw [if_neg (fun hh => hy hh.symm)]
        rfl
      rw [bmem_append, hbx, Bool.or_false]
    · rw [if_neg hp]
      unfold keyMem at h
      rw [if_neg hp] at h
      unfold groupCount
      rw [ih h]

/-- Every entry of a slave-append comes from an entry of the original graph
with the same key, whose slave list at most gains the new object. -/
theorem dictAppend_mem (g : Graph) (r x : Nat) (h : keyMem g r = true) :
    ∀ p ∈ dictAppend g r x, ∃ q ∈ g, p.1 = q.1 ∧
      ∀ s, bmem s p.2 = true → bmem s q.2 = true ∨ s = x := by
  induction g with
  | nil => simp [keyMem] at h
  | cons p0 g ih =>
    unfold dictAppend
    by_cases hp : p0.1 = r
    · rw [if_pos hp]
      intro p hpmem
      rcases List.mem_cons.1 hpmem with hh | hh
      · subst hh
        refine ⟨p0, List.mem_cons_self _ _, rfl, fun s hs => ?_⟩
        rw [bmem_append, Bool.or_eq_true] at hs
        rcases hs with hs | hs
        · exact Or.inl hs
        · right
          unfold bmem at hs
          by_cases hxs : x = s
          · exact hxs.symm
          · rw [if_neg hxs] at hs
            exact absurd hs (by simp [bmem])
      · exact ⟨p, List.mem_cons_of_mem _ hh, rfl, fun s hs => Or.inl hs⟩
    · rw [if_neg hp]
      unfold keyMem at h
      rw [if_neg hp] at h
      intro p hpmem
      rcases List.mem_cons.1 hpmem with hh | hh
      · subst hh
        exact ⟨p, List.mem_cons_self _ _, rfl, fun s hs => Or.inl hs⟩
      · obtain ⟨q, hq, h1, h2⟩ := ih h p hh
        exact ⟨q, List.mem_cons_of_mem _ hq, h1, h2⟩

/-- Unfolding `mastersFilter` over a cons cell. -/
theorem mastersFilter_cons (ρ : Nat → Role) (o : Nat) (L : List Nat) :
    mastersFilter ρ (o :: L) =
      if ρ o = Role.rMaster then o :: mastersFilter ρ L else mastersFilter ρ L := by
  unfold mastersFilter
  rw [List.filter_cons]
  by_cases h : ρ o = Role.rMaster
  · simp [h]
  · simp [h]

/-- Unfolding `placedFilter` over a cons cell. -/
theorem placedFilter_cons (ρ : Nat → Role) (o : Nat) (L : List Nat) :
    placedFilter ρ (o :: L) =
      if ρ o = Role.rSkip then placedFilter ρ L else o :: placedFilter ρ L := by
  unfold placedFilter
  rw [List.filter_cons]
  by_cases h : ρ o = Role.rSkip
  · simp [h]
  · simp [h]

/-- The central invariant of the graph builder: folding a list of fresh,
duplicate-free objects over `roleStep` — where every slave role refers
either to an existing master key or to an earlier master of the list —
extends the key list by the new masters, keeps all ids inside the placed
set, and gives every placed object group count exactly 1 (and every other
object group count 0). -/
theorem roleFold_invariant (ρ : Nat → Role) :
    ∀ (L : List Nat) (g : Graph) (M P : List Nat),
    g.map Prod.fst = M →
    (∀ p ∈ g, p.1 ∈ P ∧ ∀ s, bmem s p.2 = true → s ∈ P) →
    (∀ x, groupCount g x = if x ∈ P then 1 else 0) →
    (∀ o ∈ L, o ∉ P) →
    L.Nodup →
    (∀ l1 o l2, L = l1 ++ o :: l2 → ∀ r, ρ o = Role.rSlave r →
        r ∈ M ∨ (r ∈ l1 ∧ ρ r = Role.rMaster)) →
    ((L.foldl (fun g o => roleStep g o (ρ o)) g).map Prod.fst
        = M ++ mastersFilter ρ L ∧
      (∀ p ∈ L.foldl (fun g o => roleStep g o (ρ o)) g,
        p.1 ∈ P ++ placedFilter ρ L ∧
        ∀ s, bmem s p.2 = true → s ∈ P ++ placedFilter ρ L) ∧
      (∀ x, groupCount (L.foldl (fun g o => roleStep g o (ρ o)) g) x
        = if x ∈ P ++ placedFilter ρ L then 1 else 0)) := by
  intro L
  induction L with
  | nil =>
    intro g M P hA hIds hB _ _ _
    simp only [List.foldl_nil, mastersFilter, placedFilter, List.filter_nil, List.append_nil]
    exact ⟨hA, hIds, hB⟩
  | cons o L ih =>
    intro g M P hA hIds hB hfresh hnodup hslave
    have hoP : o ∉ P := hfresh o (List.mem_cons_self _ _)
    rw [List.nodup_cons] at hnodup
    simp only [List.foldl_cons]
    cases hρ : ρ o with
    | rSkip =>
      rw [mastersFilter_cons, if_neg (by rw [hρ]; exact fun h => Role.noConfusion h),
        placedFilter_cons, if_pos hρ]
      have hstep : roleStep g o Role.rSkip = g := rfl
      rw [hstep]
      apply ih g M P hA hIds hB
        (fun e he => hfresh e (List.mem_cons_of_mem _ he)) hnodup.2
      intro l1 e l2 hsplit r2 he
      rcases hslave (o :: l1) e l2 (by rw [hsplit]; rfl) r2 he with hh | hh
      · exact Or.inl hh
      · rcases List.mem_cons.1 hh.1 with h1 | h1
        · subst h1
          rw [hρ] at hh
          exact absurd hh.2 (fun h => Role.noConfusion h)
        · exact Or.inr ⟨h1, hh.2⟩
    | rMaster =>
      have hkey : keyMem g o = false := by
        cases hk : keyMem g o
        · rfl
        · exfalso
          obtain ⟨p, hp, hpo⟩ := List.mem_map.1 (keyMem_iff g o |>.1 hk)
          exact hoP (hpo ▸ (hIds p hp).1)
      have hstep : roleStep g o Role.rMaster = g ++ [(o, [])] := by
        show dictSet g o [] = g ++ [(o, [])]
        exact dictSet_fresh g o [] hkey
      rw [hstep]
      rw [mastersFilter_cons, if_pos hρ,
        placedFilter_cons, if_neg (by rw [hρ]; exact fun h => Role.noConfusion h)]
      have hMl : M ++ (o :: mastersFilter ρ L) = (M ++ [o]) ++ mastersFilter ρ L := by
        simp
      have hPl : P ++ (o :: placedFilter ρ L) = (P ++ [o]) ++ placedFilter ρ L := by
        simp
      rw [hMl, hPl]
      apply ih (g ++ [(o, [])]) (M ++ [o]) (P ++ [o])
      · simp [hA]
      · intro p hp
        rcases List.mem_append.1 hp with hp | hp
        · obtain ⟨h1, h2⟩ := hIds p hp
          exact ⟨List.mem_append_left _ h1, fun s hs => List.mem_append_left _ (h2 s hs)⟩
        · rcases List.mem_cons.1 hp with hp | hp
          · subst hp
            refine ⟨List.mem_append_right _ (List.mem_cons_self _ _), fun s hs => ?_⟩
            exact absurd hs (by simp [bmem])
          · exact absurd hp (List.not_mem_nil p)
      · intro x
        rw [groupCount_append, hB]
        by_cases hx : x = o
        · subst hx
          rw [if_neg hoP, if_pos (List.mem_append_right _ (List.mem_cons_self _ _))]
          show 0 + (if x = x ∨ bmem x [] = true then 1 else 0) + 0 = 1
          rw [if_pos (Or.inl rfl)]
        · have hx2 : groupCount [(o, [])] x = 0 := by
            show (if o = x ∨ bmem x [] = true then 1 else 0) + 0 = 0
            rw [if_neg]
            rintro (hh | hh)
            · exact hx hh.symm
            · exact absurd hh (by simp [bmem])
          rw [hx2]
          have hmem : (x ∈ P ++ [o]) ↔ x ∈ P := by
            rw [List.mem_append]
            constructor
            · rintro (hh | hh)
              · exact hh
              · exact absurd (List.mem_singleton.1 hh) hx
            · exact Or.inl
          by_cases hP : x ∈ P
          · rw [if_pos hP, if_pos (hmem.2 hP)]
          · rw [if_neg hP, if_neg (fun hh => hP (hmem.1 hh))]
      · intro e he
        rw [List.mem_append]
        rintro (hh | hh)
        · exact hfresh e (List.mem_cons_of_mem _ he) hh
        · exact hnodup.1 (List.mem_singleton.1 hh ▸ he)
      · exact hnodup.2
      · intro l1 e l2 hsplit r2 he
        rcases hslave (o :: l1) e l2 (by rw [hsplit]; rfl) r2 he with hh | hh
        · exact Or.inl (List.mem_append_left _ hh)
        · rcases List.mem_cons.1 hh.1 with h1 | h1
          · subst h1
            exact Or.inl (List.mem_append_right _ (List.mem_cons_self _ _))
          · exact Or.inr ⟨h1, hh.2⟩
    | rSlave r =>
      have hrM : r ∈ M := by
        rcases hslave [] o L rfl r hρ with hh | hh
        · exact hh
        · exact absurd hh.1 (List.not_mem_nil r)
      have hkey : keyMem g r = true := (keyMem_iff g r).2 (hA ▸ hrM)
      have hx1 : ∀ p ∈ g, p.1 ≠ o := fun p hp h => hoP (h ▸ (hIds p hp).1)
      have hx2 : ∀ p ∈ g, bmem o p.2 = false := by
        intro p hp
        cases hb : bmem o p.2
        · rfl
        · exact absurd ((hIds p hp).2 o hb) hoP
      have hstep : roleStep g o (Role.rSlave r) = dictAppend g r o := rfl
      rw [hstep]
      rw [mastersFilter_cons, if_neg (by rw [hρ]; exact fun h => Role.noConfusion h),
        placedFilter_cons, if_neg (by rw [hρ]; exact fun h => Role.noConfusion h)]
      have hPl : P ++ (o :: placedFilter ρ L) = (P ++ [o]) ++ placedFilter ρ L := by
        simp
      rw [hPl]
      apply ih (dictAppend g r o) M (P ++ [o])
      · rw [dictAppend_map_fst g r o hkey, hA]
      · intro p hp
        obtain ⟨q, hq, hfst, hsl⟩ := dictAppend_mem g r o hkey p hp
        refine ⟨List.mem_append_left _ (hfst ▸ (hIds q hq).1), fun s hs => ?_⟩
        rcases hsl s hs with hh | hh
        · exact List.mem_append_left _ ((hIds q hq).2 s hh)
        · exact List.mem_append_right _ (hh ▸ List.mem_cons_self _ _)
      · intro x
        by_cases hx : x = o
        · subst hx
          rw [dictAppend_groupCount_self g r x hkey hx1 hx2,
            if_pos (List.mem_append_right _ (List.mem_cons_self _ _))]
        · rw [dictAppend_groupCount_other g r o x hkey hx, hB]
          have hmem : (x ∈ P ++ [o]) ↔ x ∈ P := by
            rw [List.mem_append]
            constructor
            · rintro (hh | hh)
              · exact hh
              · exact absurd (List.mem_singleton.1 hh) hx
            · exact Or.inl
          by_cases hP : x ∈ P
          · rw [if_pos hP, if_pos (hmem.2 hP)]
          · rw [if_neg hP, if_neg (fun hh => hP (hmem.1 hh))]
      · intro e he
        rw [List.mem_append]
        rintro (hh | hh)
        · exact hfresh e (List.mem_cons_of_mem _ he) hh
        · exact hnodup.1 (List.mem_singleton.1 hh ▸ he)
      · exact hnodup.2
      · intro l1 e l2 hsplit r2 he
        rcases hslave (o :: l1) e l2 (by rw [hsplit]; rfl) r2 he with hh | hh
        · exact Or.inl hh
        · rcases List.mem_cons.1 hh.1 with h1 | h1
          · subst h1
            rw [hρ] at hh
            exact absurd hh.2 (fun h => Role.noConfusion h)
          · exact Or.inr ⟨h1, hh.2⟩

/-- The data-loop step acts on the plot graph exactly as the data feed's
role prescribes (the volume-panel update does not touch the plot graph). -/
theorem buildData_dataGraph (env : Env) (fuel : Nat) (v ov : Bool)
    (st : BuildResult) (d : Nat) :
    (buildData env fuel v ov st d).dataGraph =
      roleStep st.dataGraph d (dataRole env fuel d) := by
  unfold buildData dataRole
  split
  · rfl
  · cases hres : resolvePlotmaster env fuel (env.plotinfo d).plotmaster <;>
      · simp only []
        split <;> rfl

/-- The observer-loop step acts on the plot graph as the observer's role
prescribes. -/
theorem buildObs_dataGraph (env : Env) (fuel : Nat) (st : BuildResult) (o : Nat) :
    (buildObs env fuel st o).dataGraph =
      roleStep st.dataGraph o (obsRole env fuel o) := by
  unfold buildObs obsRole
  split
  · rfl
  · split
    · rfl
    · cases hres : resolveChain env fuel
        (((env.plotinfo o).plotmaster).getD (env.dataOf o)) <;> rfl

/-- The indicator-loop step acts on the plot graph as the indicator's role
prescribes. -/
theorem buildInd_dataGraph (env : Env) (fuel : Nat) (st : BuildResult) (i : Nat) :
    (buildInd env fuel st i).dataGraph =
      roleStep st.dataGraph i (indRole env fuel i) := by
  unfold buildInd indRole
  split
  · rfl
  · split
    · rfl
    · split
      · rfl
      · cases hres : resolveChain env fuel
          (((env.plotinfo i).plotmaster).getD (env.dataOf i)) <;> rfl

/-- Folding the data loop acts on the plot graph as the role fold does. -/
theorem foldl_buildData_dataGraph (env : Env) (fuel : Nat) (v ov : Bool)
    (datas : List Nat) :
    ∀ st : BuildResult,
      (datas.foldl (buildData env fuel v ov) st).dataGraph =
        datas.foldl (fun g d => roleStep g d (dataRole env fuel d)) st.dataGraph := by
  induction datas with
  | nil => intro st; rfl
  | cons d ds ih =>
    intro st
    rw [List.foldl_cons, List.foldl_cons, ih, buildData_dataGraph]

/-- Folding the observer loop acts on the plot graph as the role fold does. -/
theorem foldl_buildObs_dataGraph (env : Env) (fuel : Nat) (obs : List Nat) :
    ∀ st : BuildResult,
      (obs.foldl (buildObs env fuel) st).dataGraph =
        obs.foldl (fun g o => roleStep g o (obsRole env fuel o)) st.dataGraph := by
  induction obs with
  | nil => intro st; rfl
  | cons o os ih =>
    intro st
    rw [List.foldl_cons, List.foldl_cons, ih, buildObs_dataGraph]

/-- Folding the indicator loop acts on the plot graph as the role fold
does. -/
theorem foldl_buildInd_dataGraph (env : Env) (fuel : Nat) (inds : List Nat) :
    ∀ st : BuildResult,
      (inds.foldl (buildInd env fuel) st).dataGraph =
        inds.foldl (fun g i => roleStep g i (indRole env fuel i)) st.dataGraph := by
  induction inds with
  | nil => intro st; rfl
  | cons i is ih =>
    intro st
    rw [List.foldl_cons, List.foldl_cons, ih, buildInd_dataGraph]

/-- The plot graph built by `_build_graph` is the role fold of the three
loops. -/
theorem buildGraph_dataGraph (env : Env) (fuel : Nat) (v ov : Bool)
    (datas inds obs : List Nat) :
    (buildGraph env fuel v ov datas inds obs).dataGraph =
      inds.foldl (fun g i => roleStep g i (indRole env fuel i))
        (obs.foldl (fun g o => roleStep g o (obsRole env fuel o))
          (datas.foldl (fun g d => roleStep g d (dataRole env fuel d)) [])) := by
  unfold buildGraph
  rw [foldl_buildInd_dataGraph, foldl_buildObs_dataGraph, foldl_buildData_dataGraph]

/-- Membership in the placed filter. -/
theorem placedFilter_mem (ρ : Nat → Role) (L : List Nat) (x : Nat) :
    x ∈ placedFilter ρ L ↔ x ∈ L ∧ ¬(ρ x = Role.rSkip) := by
  unfold placedFilter
  rw [List.mem_filter, decide_eq_true_eq]

/-- Membership in the masters filter. -/
theorem mastersFilter_mem (ρ : Nat → Role) (L : List Nat) (x : Nat) :
    x ∈ mastersFilter ρ L ↔ x ∈ L ∧ ρ x = Role.rMaster := by
  unfold mastersFilter
  rw [List.mem_filter, decide_eq_true_eq]

/-- A data feed is placed (not skipped) exactly when its `plot` flag is set
— the data loop never consults `plotskip`. -/
theorem dataRole_ne_skip_iff (env : Env) (fuel : Nat) (d : Nat) :
    (¬(dataRole env fuel d = Role.rSkip)) ↔ (env.plotinfo d).plot = true := by
  unfold dataRole
  split
  · rename_i h
    simp [h]
  · rename_i h
    rw [Bool.not_eq_false] at h
    simp only [h, iff_true]
    split <;> exact fun hh => Role.noConfusion hh

/-- An enabled root data feed (no master reference) takes the master role. -/
theorem dataRole_root (env : Env) (fuel : Nat) (r : Nat)
    (h1 : (env.plotinfo r).plot = true) (h2 : (env.plotinfo r).plotmaster = none) :
    dataRole env fuel r = Role.rMaster := by
  unfold dataRole
  rw [if_neg (by simp [h1]), h2]
  rfl

/-- Inversion of the data-feed slave role: the feed is plotted, has an
explicit master reference, and the master chain resolves to `r`. -/
theorem dataRole_slave_inv (env : Env) (fuel : Nat) (d r : Nat)
    (h : dataRole env fuel d = Role.rSlave r) :
    (env.plotinfo d).plot = true ∧
    ∃ m, (env.plotinfo d).plotmaster = some m ∧ resolveChain env fuel m = some r := by
  unfold dataRole at h
  split at h
  · exact absurd h (fun hh => Role.noConfusion hh)
  · rename_i hplot
    rw [Bool.not_eq_false] at hplot
    refine ⟨hplot, ?_⟩
    cases hres : resolvePlotmaster env fuel (env.plotinfo d).plotmaster with
    | none =>
      rw [hres] at h
      exact absurd h (fun hh => Role.noConfusion hh)
    | some p =>
      rw [hres] at h
      injection h with h2
      subst h2
      unfold resolvePlotmaster at hres
      cases hpm : (env.plotinfo d).plotmaster with
      | none =>
        rw [hpm] at hres
        exact absurd hres (by simp)
      | some m =>
        rw [hpm] at hres
        exact ⟨m, rfl, hres⟩

/-- An observer is placed exactly when it is plotted and not skip-flagged,
provided its master resolution (when needed) succeeds. -/
theorem obsRole_ne_skip_iff (env : Env) (fuel : Nat) (o : Nat)
    (hres : (env.plotinfo o).plot = true → (env.plotinfo o).plotskip = false →
      (env.plotinfo o).subplot = false →
      ∃ r, resolveChain env fuel
        (((env.plotinfo o).plotmaster).getD (env.dataOf o)) = some r) :
    (¬(obsRole env fuel o = Role.rSkip)) ↔
      ((env.plotinfo o).plot = true ∧ (env.plotinfo o).plotskip = false) := by
  unfold obsRole
  split
  · rename_i h
    constructor
    · exact fun hh => absurd rfl hh
    · rintro ⟨h1, h2⟩
      rcases h with h | h
      · rw [h1] at h
        exact absurd h (by simp)
      · rw [h2] at h
        exact absurd h (by simp)
  · rename_i h
    rw [not_or, Bool.not_eq_false, Bool.not_eq_true] at h
    obtain ⟨h1, h2⟩ := h
    simp only [h1, h2, and_self, iff_true]
    split
    · exact fun hh => Role.noConfusion hh
    · rename_i hsub
      rw [Bool.not_eq_true] at hsub
      obtain ⟨r, hr⟩ := hres h1 h2 hsub
      rw [hr]
      exact fun hh => Role.noConfusion hh

/-- Inversion of the observer slave role. -/
theorem obsRole_slave_inv (env : Env) (fuel : Nat) (o r : Nat)
    (h : obsRole env fuel o = Role.rSlave r) :
    (env.plotinfo o).plot = true ∧ (env.plotinfo o).plotskip = false ∧
    (env.plotinfo o).subplot = false ∧
    resolveChain env fuel (((env.plotinfo o).plotmaster).getD (env.dataOf o)) = some r := by
  unfold obsRole at h
  split at h
  · exact absurd h (fun hh => Role.noConfusion hh)
  · rename_i hc
    rw [not_or, Bool.not_eq_false, Bool.not_eq_true] at hc
    split at h
    · exact absurd h (fun hh => Role.noConfusion hh)
    · rename_i hsub
      rw [Bool.not_eq_true] at hsub
      cases hres : resolveChain env fuel
          (((env.plotinfo o).plotmaster).getD (env.dataOf o)) with
      | none =>
        rw [hres] at h
        exact absurd h (fun hh => Role.noConfusion hh)
      | some p =>
        rw [hres] at h
        injection h with h2
        subst h2
        exact ⟨hc.1, hc.2, hsub, rfl⟩

/-- An indicator is placed exactly when it has plot metadata, is plotted
and not skip-flagged, provided its master resolution (when needed)
succeeds. -/
theorem indRole_ne_skip_iff (env : Env) (fuel : Nat) (i : Nat)
    (hres : env.hasPlotinfo i = true → (env.plotinfo i).plot = true →
      (env.plotinfo i).plotskip = false → (env.plotinfo i).subplot = false →
      ∃ r, resolveChain env fuel
        (((env.plotinfo i).plotmaster).getD (env.dataOf i)) = some r) :
    (¬(indRole env fuel i = Role.rSkip)) ↔
      (env.hasPlotinfo i = true ∧ (env.plotinfo i).plot = true ∧
        (env.plotinfo i).plotskip = false) := by
  unfold indRole
  split
  · rename_i h
    constructor
    · exact fun hh => absurd rfl hh
    · rintro ⟨h1, _, _⟩
      rw [h1] at h
      exact absurd h (by simp)
  · rename_i h0
    rw [Bool.not_eq_false] at h0
    split
    · rename_i h
      constructor
      · exact fun hh => absurd rfl hh
      · rintro ⟨_, h1, h2⟩
        rcases h with h | h
        · rw [h1] at h
          exact absurd h (by simp)
        · rw [h2] at h
          exact absurd h (by simp)
    · rename_i h
      rw [not_or, Bool.not_eq_false, Bool.not_eq_true] at h
      obtain ⟨h1, h2⟩ := h
      simp only [h0, h1, h2, and_self, iff_true]
      split
      · exact fun hh => Role.noConfusion hh
      · rename_i hsub
        rw [Bool.not_eq_true] at hsub
        obtain ⟨r, hr⟩ := hres h0 h1 h2 hsub
        rw [hr]
        exact fun hh => Role.noConfusion hh

/-- Inversion of the indicator slave role. -/
theorem indRole_slave_inv (env : Env) (fuel : Nat) (i r : Nat)
    (h : indRole env fuel i = Role.rSlave r) :
    env.hasPlotinfo i = true ∧
    (env.plotinfo i).plot = true ∧ (env.plotinfo i).plotskip = false ∧
    (env.plotinfo i).subplot = false ∧
    resolveChain env fuel (((env.plotinfo i).plotmaster).getD (env.dataOf i)) = some r := by
  unfold indRole at h
  split at h
  · exact absurd h (fun hh => Role.noConfusion hh)
  · rename_i h0
    rw [Bool.not_eq_false] at h0
    split at h
    · exact absurd h (fun hh => Role.noConfusion hh)
    · rename_i hc
      rw [not_or, Bool.not_eq_false, Bool.not_eq_true] at hc
      split at h
      · exact absurd h (fun hh => Role.noConfusion hh)
      · rename_i hsub
        rw [Bool.not_eq_true] at hsub
        cases hres : resolveChain env fuel
            (((env.plotinfo i).plotmaster).getD (env.dataOf i)) with
        | none =>
          rw [hres] at h
          exact absurd h (fun hh => Role.noConfusion hh)
        | some p =>
          rw [hres] at h
          injection h with h2
          subst h2
          exact ⟨h0, hc.1, hc.2, hsub, rfl⟩

/-- C1 (amended): in a well-formed configuration — pairwise-distinct
objects; every slave data feed's master chain resolving to an enabled root
data feed appearing *earlier* in the data list; every non-subplot
indicator/observer's master resolving to an enabled root data feed — each
data feed enabled for plotting appears in exactly one group of the plot
graph and each disabled data feed in none (the skip flag is *not* consulted
for data feeds, so an enabled feed appears even if flagged to skip), while
each indicator/observer with plot metadata that is enabled and not
skip-flagged appears in exactly one group and all other
indicators/observers in none. -/
theorem C1_each_plottable_in_one_group (env : Env) (fuel : Nat)
    (volume voloverlay : Bool) (datas inds obs : List Nat)
    (hnodup : (datas ++ obs ++ inds).Nodup)
    (hd : ∀ l1 d l2, datas = l1 ++ d :: l2 → (env.plotinfo d).plot = true →
      ∀ m, (env.plotinfo d).plotmaster = some m →
      ∃ r, resolveChain env fuel m = some r ∧ r ∈ l1 ∧
        (env.plotinfo r).plot = true ∧ (env.plotinfo r).plotmaster = none)
    (ho : ∀ o ∈ obs, (env.plotinfo o).plot = true → (env.plotinfo o).plotskip = false →
      (env.plotinfo o).subplot = false →
      ∃ r, resolveChain env fuel (((env.plotinfo o).plotmaster).getD (env.dataOf o)) = some r ∧
        r ∈ datas ∧ (env.plotinfo r).plot = true ∧ (env.plotinfo r).plotmaster = none)
    (hi : ∀ i ∈ inds, env.hasPlotinfo i = true → (env.plotinfo i).plot = true →
      (env.plotinfo i).plotskip = false → (env.plotinfo i).subplot = false →
      ∃ r, resolveChain env fuel (((env.plotinfo i).plotmaster).getD (env.dataOf i)) = some r ∧
        r ∈ datas ∧ (env.plotinfo r).plot = true ∧ (env.plotinfo r).plotmaster = none) :
    (∀ d ∈ datas,
      groupCount (buildGraph env fuel volume voloverlay datas inds obs).dataGraph d =
        if (env.plotinfo d).plot = true then 1 else 0) ∧
    (∀ o ∈ obs,
      groupCount (buildGraph env fuel volume voloverlay datas inds obs).dataGraph o =
        if (env.plotinfo o).plot = true ∧ (env.plotinfo o).plotskip = false
        then 1 else 0) ∧
    (∀ i ∈ inds,
      groupCount (buildGraph env fuel volume voloverlay datas inds obs).dataGraph i =
        if env.hasPlotinfo i = true ∧ (env.plotinfo i).plot = true ∧
            (env.plotinfo i).plotskip = false then 1 else 0) := by
  rw [List.nodup_append] at hnodup
  obtain ⟨hleft, hninds, hdisjBig⟩ := hnodup
  rw [List.nodup_append] at hleft
  obtain ⟨hndatas, hnobs, hdisjDO⟩ := hleft
  obtain ⟨hA1, hIds1, hB1⟩ :=
    roleFold_invariant (dataRole env fuel) datas [] [] []
      rfl
      (fun p hp => absurd hp (List.not_mem_nil p))
      (fun x => by simp [groupCount])
      (fun o _ => List.not_mem_nil o)
      hndatas
      (fun l1 d l2 hsplit r hrole => by
        obtain ⟨hplot, m, hm, hres⟩ := dataRole_slave_inv env fuel d r hrole
        obtain ⟨r2, hres2, hl1, hrplot, hrpm⟩ := hd l1 d l2 hsplit hplot m hm
        rw [hres] at hres2
        injection hres2 with h2
        subst h2
        exact Or.inr ⟨hl1, dataRole_root env fuel r hrplot hrpm⟩)
  obtain ⟨hA2, hIds2, hB2⟩ :=
    roleFold_invariant (obsRole env fuel) obs
      (datas.foldl (fun g d => roleStep g d (dataRole env fuel d)) [])
      ([] ++ mastersFilter (dataRole env fuel) datas)
      ([] ++ placedFilter (dataRole env fuel) datas)
      hA1 hIds1 hB1
      (fun o ho2 hoP => by
        rw [List.nil_append, placedFilter_mem] at hoP
        exact hdisjDO hoP.1 ho2)
      hnobs
      (fun l1 o l2 hsplit r hrole => by
        have homem : o ∈ obs := by
          rw [hsplit]
          exact List.mem_append_right _ (List.mem_cons_self _ _)
        obtain ⟨hplot, hskip, hsub, hres⟩ := obsRole_slave_inv env fuel o r hrole
        obtain ⟨r2, hres2, hrdatas, hrplot, hrpm⟩ := ho o homem hplot hskip hsub
        rw [hres] at hres2
        injection hres2 with h2
        subst h2
        refine Or.inl ?_
        rw [List.nil_append, mastersFilter_mem]
        exact ⟨hrdatas, dataRole_root env fuel r hrplot hrpm⟩)
  obtain ⟨hA3, hIds3, hB3⟩ :=
    roleFold_invariant (indRole env fuel) inds
      (obs.foldl (fun g o => roleStep g o (obsRole env fuel o))
        (datas.foldl (fun g d => roleStep g d (dataRole env fuel d)) []))
      (([] ++ mastersFilter (dataRole env fuel) datas) ++ mastersFilter (obsRole env fuel) obs)
      (([] ++ placedFilter (dataRole env fuel) datas) ++ placedFilter (obsRole env fuel) obs)
      hA2 hIds2 hB2
      (fun i hi2 hiP => by
        rcases List.mem_append.1 hiP with hh | hh
        · rw [List.nil_append, placedFilter_mem] at hh
          exact hdisjBig (List.mem_append_left obs hh.1) hi2
        · rw [placedFilter_mem] at hh
          exact hdisjBig (List.mem_append_right datas hh.1) hi2)
      hninds
      (fun l1 i l2 hsplit r hrole => by
        have himem : i ∈ inds := by
          rw [hsplit]
          exact List.mem_append_right _ (List.mem_cons_self _ _)
        obtain ⟨hhas, hplot, hskip, hsub, hres⟩ := indRole_slave_inv env fuel i r hrole
        obtain ⟨r2, hres2, hrdatas, hrplot, hrpm⟩ := hi i himem hhas hplot hskip hsub
        rw [hres] at hres2
        injection hres2 with h2
        subst h2
        refine Or.inl (List.mem_append_left _ ?_)
        rw [List.nil_append, mastersFilter_mem]
        exact ⟨hrdatas, dataRole_root env fuel r hrplot hrpm⟩)
  rw [buildGraph_dataGraph]
  refine ⟨?_, ?_, ?_⟩
  · intro d hdmem
    rw [hB3 d]
    have hiff : (d ∈ (([] ++ placedFilter (dataRole env fuel) datas) ++
        placedFilter (obsRole env fuel) obs) ++ placedFilter (indRole env fuel) inds) ↔
        (env.plotinfo d).plot = true := by
      simp only [List.nil_append, List.mem_append]
      constructor
      · rintro ((hh | hh) | hh)
        · exact (dataRole_ne_skip_iff env fuel d).1 ((placedFilter_mem _ _ _).1 hh).2
        · exact absurd ((placedFilter_mem _ _ _).1 hh).1 (fun hho => hdisjDO hdmem hho)
        · exact absurd ((placedFilter_mem _ _ _).1 hh).1
            (fun hhi => hdisjBig (List.mem_append_left obs hdmem) hhi)
      · intro hplot
        exact Or.inl (Or.inl ((placedFilter_mem _ _ _).2
          ⟨hdmem, (dataRole_ne_skip_iff env fuel d).2 hplot⟩))
    by_cases hplot : (env.plotinfo d).plot = true
    · rw [if_pos (hiff.2 hplot), if_pos hplot]
    · rw [if_neg (fun hh => hplot (hiff.1 hh)), if_neg hplot]
  · intro o homem
    rw [hB3 o]
    have hresx : (env.plotinfo o).plot = true → (env.plotinfo o).plotskip = false →
        (env.plotinfo o).subplot = false →
        ∃ r, resolveChain env fuel
          (((env.plotinfo o).plotmaster).getD (env.dataOf o)) = some r := by
      intro hp hs hsub
      obtain ⟨r, hr⟩ := ho o homem hp hs hsub
      exact ⟨r, hr.1⟩
    have hiff : (o ∈ (([] ++ placedFilter (dataRole env fuel) datas) ++
        placedFilter (obsRole env fuel) obs) ++ placedFilter (indRole env fuel) inds) ↔
        ((env.plotinfo o).plot = true ∧ (env.plotinfo o).plotskip = false) := by
      simp only [List.nil_append, List.mem_append]
      constructor
      · rintro ((hh | hh) | hh)
        · exact absurd homem (fun hho => hdisjDO ((placedFilter_mem _ _ _).1 hh).1 hho)
        · exact (obsRole_ne_skip_iff env fuel o hresx).1 ((placedFilter_mem _ _ _).1 hh).2
        · exact absurd ((placedFilter_mem _ _ _).1 hh).1
            (fun hio => hdisjBig (List.mem_append_right datas homem) hio)
      · intro hen
        exact Or.inl (Or.inr ((placedFilter_mem _ _ _).2
          ⟨homem, (obsRole_ne_skip_iff env fuel o hresx).2 hen⟩))
    by_cases hen : (env.plotinfo o).plot = true ∧ (env.plotinfo o).plotskip = false
    · rw [if_pos (hiff.2 hen), if_pos hen]
    · rw [if_neg (fun hh => hen (hiff.1 hh)), if_neg hen]
  · intro i himem
    rw [hB3 i]
    have hresx : env.hasPlotinfo i = true → (env.plotinfo i).plot = true →
        (env.plotinfo i).plotskip = false → (env.plotinfo i).subplot = false →
        ∃ r, resolveChain env fuel
          (((env.plotinfo i).plotmaster).getD (env.dataOf i)) = some r := by
      intro hh hp hs hsub
      obtain ⟨r, hr⟩ := hi i himem hh hp hs hsub
      exact ⟨r, hr.1⟩
    have hiff : (i ∈ (([] ++ placedFilter (dataRole env fuel) datas) ++
        placedFilter (obsRole env fuel) obs) ++ placedFilter (indRole env fuel) inds) ↔
        (env.hasPlotinfo i = true ∧ (env.plotinfo i).plot = true ∧
          (env.plotinfo i).plotskip = false) := by
      simp only [List.nil_append, List.mem_append]
      constructor
      · rintro ((hh | hh) | hh)
        · exact absurd himem (fun hhi =>
            hdisjBig (List.mem_append_left obs ((placedFilter_mem _ _ _).1 hh).1) hhi)
        · exact absurd himem (fun hhi =>
            hdisjBig (List.mem_append_right datas ((placedFilter_mem _ _ _).1 hh).1) hhi)
        · exact (indRole_ne_skip_iff env fuel i hresx).1 ((placedFilter_mem _ _ _).1 hh).2
      · intro hen
        exact Or.inr ((placedFilter_mem _ _ _).2
          ⟨himem, (indRole_ne_skip_iff env fuel i hresx).2 hen⟩)
    by_cases hen : env.hasPlotinfo i = true ∧ (env.plotinfo i).plot = true ∧
        (env.plotinfo i).plotskip = false
    · rw [if_pos (hiff.2 hen), if_pos hen]
    · rw [if_neg (fun hh => hen (hiff.1 hh)), if_neg hen]

/-- Witness for C1 on a single enabled root data feed: it appears in
exactly one group. -/
theorem C1_each_plottable_in_one_group_witness :
    (∀ d ∈ ([0] : List Nat),
      groupCount (buildGraph envW 1 false true [0] [] []).dataGraph d =
        if (envW.plotinfo d).plot = true then 1 else 0) ∧
    (∀ o ∈ ([] : List Nat),
      groupCount (buildGraph envW 1 false true [0] [] []).dataGraph o =
        if (envW.plotinfo o).plot = true ∧ (envW.plotinfo o).plotskip = false
        then 1 else 0) ∧
    (∀ i ∈ ([] : List Nat),
      groupCount (buildGraph envW 1 false true [0] [] []).dataGraph i =
        if envW.hasPlotinfo i = true ∧ (envW.plotinfo i).plot = true ∧
            (envW.plotinfo i).plotskip = false then 1 else 0) := by
  apply C1_each_plottable_in_one_group envW 1 false true [0] [] []
  · decide
  · intro l1 d l2 hsplit hplot m hm
    have hd0 : d ∈ ([0] : List Nat) := by
      rw [hsplit]
      exact List.mem_append_right _ (List.mem_cons_self _ _)
    have hd1 : d = 0 := by simpa using hd0
    subst hd1
    simp [envW] at hm
  · intro o homem
    exact absurd homem (List.not_mem_nil o)
  · intro i himem
    exact absurd himem (List.not_mem_nil i)

/-- C1 counterexample: the data loop never consults `plotskip`, so a data
feed that is enabled but flagged to skip still appears in a group of the
plot graph, refuting the claim that skip-flagged plottables appear in no
group. -/
theorem C1_counterexample :
    (envSkip.plotinfo 0).plotskip = true ∧
    groupCount (buildGraph envSkip 1 false true [0] [] []).dataGraph 0 = 1 :=
  ⟨rfl, rfl⟩

end BacktraderPlotting
